import Mathlib

set_option linter.unusedVariables false

namespace SteamGraph

/-!
Shallow embedding of the SteamGraph incremental sync engine:
`src/lib/server/steam.ts` (remote catalog client), the database module
(store writer, `insertOrUpdateTags` / `insertOrUpdateApps` / schema from
`checkDatabase`) and the jobs module (reconciler, `syncWithSteam` /
`syncSteamTags` / `syncSteamApps` / `getDataJson` / `setDataJson`).

Modelling conventions:
- remote HTTP traffic is scripted by an environment: a list of page
  responses for the paginated `GetAppList` endpoint, a function from the
  requested chunk to the response for `GetItems`;
- a JavaScript value that may be `undefined` is an `Option`; a thrown
  exception (fetch rejection, non-ok status, field access on `undefined`)
  is an `Except.error`;
- the relational store is a record of the three tables created by
  `checkDatabase`; one SQL `INSERT ... ON CONFLICT DO UPDATE` over
  unnested arrays is a left fold of single-row upserts, and the explicit
  `BEGIN`/`COMMIT`/`ROLLBACK` transaction of `insertOrUpdateApps` runs the
  statements on a snapshot that replaces the committed state only on
  commit.
-/

/-- One entry of `data.response.apps` in a `GetAppList` page
(fields `appid`, `name`). -/
structure RawApp where
  appid : Int
  name : String
deriving DecidableEq

/-- The `data.response` object of one `GetAppList` page: the `apps` array
may be absent (`undefined`), plus the `have_more_results` / `last_appid`
cursor pair read by `getSteamApps`. -/
structure AppListPage where
  apps : Option (List RawApp)
  have_more_results : Bool
  last_appid : Int
deriving DecidableEq

/-- The query parameters of one `GetAppList` request issued by
`getSteamApps` (`if_modified_since`, `last_appid`, `max_results`). -/
structure AppListCall where
  if_modified_since : Int
  last_appid : Int
  max_results : Nat
deriving DecidableEq

/-- An `{appId, name}` record as returned by `getSteamApps`. -/
structure AppRef where
  appId : Int
  name : String
deriving DecidableEq

/-- The loop of `getSteamApps` (steam.ts lines 23-51).  The remote is the
list of responses the successive `fetch` calls receive; `Except.error`
models a rejected fetch or a non-ok status (the code throws), and running
out of scripted responses is likewise a transport failure.  The result
carries the accumulated apps, the returned `time`, and the trace of
requests issued (for the pagination claims). -/
def getSteamAppsGo (lastTime now : Int) :
    List (Except String AppListPage) → Int → List RawApp → List AppListCall →
      Except String (List AppRef × Int × List AppListCall)
  | [], _, _, _ => .error "fetch failed"
  | resp :: rest, lastAppId, acc, calls =>
    match resp with
    | .error e => .error e
    | .ok page =>
      let acc' := acc ++ page.apps.getD []
      if page.apps == some [] then
        .ok ([], lastTime, calls ++ [⟨lastTime, lastAppId, 50000⟩])
      else if page.have_more_results then
        getSteamAppsGo lastTime now rest page.last_appid acc'
          (calls ++ [⟨lastTime, lastAppId, 50000⟩])
      else
        .ok (acc'.map (fun a => ⟨a.appid, a.name⟩), now,
          calls ++ [⟨lastTime, lastAppId, 50000⟩])

/-- `getSteamApps` (steam.ts lines 15-62): paginated identifier listing.
`lastTime` is the `lastTime` argument (default 0 at the call sites),
`now` is the `Date.now()` captured before the loop. -/
def getSteamApps (pages : List (Except String AppListPage))
    (lastTime now : Int) :
    Except String (List AppRef × Int × List AppListCall) :=
  getSteamAppsGo lastTime now pages 0 [] []

/-- Loop body for `chunksOf`, with an explicit fuel bound so the
recursion is structural: one unit of fuel per loop iteration, and
`l.length` units always suffice because every iteration with a positive
chunk size drops at least one element. -/
def chunksOfGo (n : Nat) : Nat → List α → List (List α)
  | _, [] => []
  | 0, _ :: _ => []
  | fuel + 1, x :: xs =>
    ((x :: xs).take n) :: chunksOfGo n fuel ((x :: xs).drop n)

/-- `chunks` construction of `getSteamAppDetails` (steam.ts lines 79-82):
`for (let i = 0; i < appIds.length; i += n) chunks.push(appIds.slice(i, i + n))`. -/
def chunksOf (n : Nat) (l : List α) : List (List α) :=
  chunksOfGo n l.length l

/-- One tag of a store item in a `GetItems` response (`tagid`, `weight`). -/
structure RawTag where
  tagid : Int
  weight : Int
deriving DecidableEq

/-- One element of `data.response.store_items` in a `GetItems` response.
`tags` may be absent (`undefined`); the optional
`unvailable_for_country_restriction` flag is modelled as a `Bool` where
`false` stands for both `false` and absent (the code only tests its
truthiness). -/
structure StoreItem where
  appid : Int
  name : String
  full_description : String
  tags : Option (List RawTag)
  unvailable_for_country_restriction : Bool
deriving DecidableEq

/-- A `{id, weight}` tag record as returned by `getSteamAppDetails`. -/
structure TagWeight where
  id : Int
  weight : Int
deriving DecidableEq

/-- A detail record as returned by `getSteamAppDetails` and consumed by
`insertOrUpdateApps`.  The objects built in steam.ts lines 115-128 carry
no `color` and no `playerCount` field, so reading them at the
`insertOrUpdateApps` call site yields `undefined`: both are `Option`s and
`getSteamAppDetails` always constructs `none`. -/
structure AppDetail where
  appId : Int
  name : String
  description : String
  tags : List TagWeight
  color : Option String := none
  playerCount : Option Int := none
deriving DecidableEq

/-- The chunk loop of `getSteamAppDetails` (steam.ts lines 84-113): one
remote call per chunk, sequential; a failed call throws and aborts the
whole operation; each page's `store_items` are filtered by the region
flag and appended. -/
def getSteamAppDetailsGo (remote : List Int → Except String (List StoreItem)) :
    List (List Int) → List StoreItem → Except String (List StoreItem)
  | [], acc => .ok acc
  | c :: rest, acc =>
    match remote c with
    | .error e => .error e
    | .ok items =>
      getSteamAppDetailsGo remote rest
        (acc ++ items.filter (fun it => ! it.unvailable_for_country_restriction))

/-- The final mapping of `getSteamAppDetails` (steam.ts lines 115-128). -/
def toAppDetail (it : StoreItem) : AppDetail :=
  { appId := it.appid
    name := it.name
    description := it.full_description
    tags := (it.tags.getD []).map (fun t => ⟨t.tagid, t.weight⟩) }

/-- `getSteamAppDetails` (steam.ts lines 73-129).  The result also carries
the list of chunks requested, one remote call per chunk. -/
def getSteamAppDetails (remote : List Int → Except String (List StoreItem))
    (appIds : List Int) :
    Except String (List AppDetail × List (List Int)) :=
  let chunks := chunksOf 250 appIds
  match getSteamAppDetailsGo remote chunks [] with
  | .error e => .error e
  | .ok items => .ok (items.map toAppDetail, chunks)

/-- Result of `getTagList` (steam.ts lines 140-168): the mapped `tags`
array (`?? []`, hence always a list) and `version_hash`. -/
structure TagListResult where
  tags : List (Int × String)
  tagHash : Int
deriving DecidableEq

/-- The parsed body of the `GetNumberOfCurrentPlayers` response:
`data.response` may be absent, and inside it `player_count` may be absent. -/
structure PlayerCountBody where
  response : Option (Option Int)
deriving DecidableEq

/-- The `fetch` outcome seen by `getPlayerCount`: `.error` is a rejected
fetch; otherwise an `ok` status flag and the result of `response.json()`
(which itself may fail to parse). -/
structure PlayerCountResponse where
  ok : Bool
  body : Except String PlayerCountBody

/-- `getPlayerCount` (steam.ts lines 174-185).  A non-ok status returns 0
before the body is read; a present `response` object with an absent
`player_count` yields `?? 0`; an absent `response` object makes
`data.response.player_count` throw a TypeError. -/
def getPlayerCount (fetched : Except String PlayerCountResponse) :
    Except String Int :=
  match fetched with
  | .error e => .error e
  | .ok resp =>
    if ! resp.ok then .ok 0
    else
      match resp.body with
      | .error e => .error e
      | .ok b =>
        match b.response with
        | none => .error "TypeError: cannot read properties of undefined"
        | some pc => .ok (pc.getD 0)

/-- One row of the `app` table created by `checkDatabase`: `app_id` is the
primary key; every other column is nullable (an inserted SQL `NULL` is
`none`). -/
structure AppRow where
  app_id : Int
  name : Option String
  description : Option String
  color : Option String
  player_count : Option Int
deriving DecidableEq

/-- The relational store: the three tables created by `checkDatabase`
(`tags`, `app`, `app_tags`).  `tags` rows are `(tag_id, name)`, `app_tags`
rows are `(app_id, tag_id, weight)`. -/
structure DB where
  tags : List (Int × String)
  app : List AppRow
  app_tags : List (Int × Int × Int)
deriving DecidableEq

/-- The `DEFAULT` of the `color` column in `checkDatabase`'s
`CREATE TABLE app` — applied by the store only when an `INSERT` omits the
column. -/
def appColorDefault : String := "#000000"

/-- The `DEFAULT` of the `player_count` column in `checkDatabase`'s
`CREATE TABLE app`. -/
def appPlayerCountDefault : Int := 0

/-- One-row effect of `INSERT INTO tags ... ON CONFLICT (tag_id) DO
UPDATE SET name = EXCLUDED.name`. -/
def upsertTagRow (rows : List (Int × String)) (t : Int × String) :
    List (Int × String) :=
  if rows.any (fun r => r.1 == t.1) then
    rows.map (fun r => if r.1 == t.1 then t else r)
  else rows ++ [t]

/-- `insertOrUpdateTags` (database module lines 200-217): a single upsert
statement over the unnested tag arrays; any error raised by the store
(modelled by the `queryFails` flag of the environment) is caught, leaving
the table unchanged, and reported as `false`. -/
def insertOrUpdateTags (db : DB) (tags : List (Int × String))
    (queryFails : Bool) : DB × Bool :=
  if queryFails then (db, false)
  else ({ db with tags := tags.foldl upsertTagRow db.tags }, true)

/-- One-row effect of the `app` upsert in `insertOrUpdateApps`: on
conflict of `app_id`, `name`, `description`, `color` and `player_count`
are all overwritten with the excluded row's values. -/
def upsertAppRow (rows : List AppRow) (r : AppRow) : List AppRow :=
  if rows.any (fun x => x.app_id == r.app_id) then
    rows.map (fun x => if x.app_id == r.app_id then r else x)
  else rows ++ [r]

/-- The row the `appQuery` of `insertOrUpdateApps` inserts for one input
item: the five columns are supplied explicitly from the unnested arrays,
so a JavaScript `undefined` (`app.color`, `app.playerCount`) becomes an
explicit SQL `NULL` — the column `DEFAULT`s of the schema do not apply. -/
def appRowOf (app : AppDetail) : AppRow :=
  { app_id := app.appId
    name := some app.name
    description := some app.description
    color := app.color
    player_count := app.playerCount }

/-- Effect of the `appQuery` statement of `insertOrUpdateApps` on the
transaction state. -/
def runAppQuery (db : DB) (apps : List AppDetail) : DB :=
  { db with app := (apps.map appRowOf).foldl upsertAppRow db.app }

/-- The three unnested arrays of the `tagsQuery` statement, zipped back
into rows: `(app_id, tag_id, weight)` for every tag of every item. -/
def flatTagRows (apps : List AppDetail) : List (Int × Int × Int) :=
  apps.flatMap (fun app => app.tags.map (fun t => (app.appId, t.id, t.weight)))

/-- One-row effect of the `app_tags` upsert (conflict key
`(app_id, tag_id)`, weight overwritten). -/
def upsertWeightRow (rows : List (Int × Int × Int)) (r : Int × Int × Int) :
    List (Int × Int × Int) :=
  if rows.any (fun x => x.1 == r.1 && x.2.1 == r.2.1) then
    rows.map (fun x => if x.1 == r.1 && x.2.1 == r.2.1 then r else x)
  else rows ++ [r]

/-- Effect of the `tagsQuery` statement of `insertOrUpdateApps` on the
transaction state: each row must satisfy the two foreign keys of
`app_tags` (`app_id REFERENCES app`, `tag_id REFERENCES tags`); a
violation raises an error that fails the statement. -/
def runTagsQuery (db : DB) : List (Int × Int × Int) → Except String DB
  | [] => .ok db
  | r :: rest =>
    if db.app.any (fun x => x.app_id == r.1)
        && db.tags.any (fun x => x.1 == r.2.1) then
      runTagsQuery { db with app_tags := upsertWeightRow db.app_tags r } rest
    else .error "foreign key violation"

/-- A database connection as `insertOrUpdateApps` uses it: the committed
store plus the state of the in-flight transaction, if one is open.
Statements inside a transaction act on the transaction state only. -/
structure Conn where
  committed : DB
  txn : Option DB

/-- `client.query('BEGIN')`: open a transaction on a snapshot of the
committed state. -/
def Conn.begin (c : Conn) : Conn :=
  { c with txn := some c.committed }

/-- `client.query('COMMIT')`: the transaction state becomes the committed
state. -/
def Conn.commit (c : Conn) : Conn :=
  match c.txn with
  | some d => { committed := d, txn := none }
  | none => c

/-- `client.query('ROLLBACK')`: discard the transaction state; the
committed state is untouched. -/
def Conn.rollback (c : Conn) : Conn :=
  { c with txn := none }

/-- `insertOrUpdateApps` (database module lines 224-280): `BEGIN`, the
`appQuery` over the unnested item arrays, the `tagsQuery` over the
unnested weight arrays, `COMMIT`; any error is caught, the transaction is
rolled back and `false` is returned.  The returned `DB` is the committed
state after the call. -/
def insertOrUpdateApps (db : DB) (apps : List AppDetail) : DB × Bool :=
  let c := Conn.begin { committed := db, txn := none }
  let d1 := runAppQuery (c.txn.getD c.committed) apps
  match runTagsQuery d1 (flatTagRows apps) with
  | .error _ =>
    ((Conn.rollback { c with txn := some d1 }).committed, false)
  | .ok d2 =>
    ((Conn.commit { c with txn := some d2 }).committed, true)

/-- The contents of `data.json` read by `getDataJson` and written by
`setDataJson`; an absent file or field is `none` (`getDataJson` returns
`{}` when the file is missing or unparseable). -/
structure FileState where
  lastTagHash : Option Int := none
  lastAppTime : Option Int := none
deriving DecidableEq

/-- The mutable state a sync pass acts on: the relational store and the
persisted `data.json`. -/
structure SyncState where
  db : DB
  file : FileState
deriving DecidableEq

/-- JavaScript truthiness of the optional watermark fields: `undefined`
and `0` are falsy (`if (data.lastTagHash)` / `if (data.lastAppTime)`). -/
def truthyInt : Option Int → Bool
  | none => false
  | some v => v != 0

/-- The `have_version_hash` argument `syncSteamTags` passes to
`getTagList`: the stored hash when truthy, else the default `0`. -/
def tagsSinceArg (f : FileState) : Int :=
  if truthyInt f.lastTagHash then f.lastTagHash.getD 0 else 0

/-- The `lastTime` argument `syncSteamApps` passes to `getSteamApps`:
the stored time when truthy, else the default `0`. -/
def appsSinceArg (f : FileState) : Int :=
  if truthyInt f.lastAppTime then f.lastAppTime.getD 0 else 0

/-- The environment of one sync pass: the scripted remote responses and
the store/file failure switches.  `tagList` maps the `have_version_hash`
argument to the outcome of `getTagList`; `pages` scripts the `GetAppList`
responses; `detailsRemote` maps a requested chunk to its `GetItems`
response; `now` is `Date.now()`; `tagsWriteFails` injects a store error
into `insertOrUpdateTags`; `dataWriteOk` is whether
`fs.promises.writeFile('data.json', ...)` succeeds. -/
structure Env where
  tagList : Int → Except String TagListResult
  pages : List (Except String AppListPage)
  detailsRemote : List Int → Except String (List StoreItem)
  now : Int
  tagsWriteFails : Bool
  dataWriteOk : Bool

/-- What a feed's sync function does from its caller's point of view:
it either throws (a rejected `await` propagates) or returns normally
(`undefined` — a caller cannot tell success from a swallowed failure). -/
inductive FeedResult
  | threw (msg : String)
  | returned
deriving DecidableEq

/-- Observable side effects of one feed's sync, for the claims about
which collaborators were invoked and what was logged. -/
structure FeedTrace where
  writerCalled : Bool := false
  saveAttempted : Bool := false
  saveSucceeded : Bool := false
  saveErrorLogged : Bool := false
  loggedSynced : Bool := false
  loggedNoNew : Bool := false
deriving DecidableEq

/-- `syncSteamTags` (jobs module lines 18-40): read `data.json`, fetch
the tag list (with the stored hash when truthy), return on zero tags,
return on a failed `insertOrUpdateTags`, else set `data.lastTagHash` to
the fetched `tagHash` and write `data.json` (`setDataJson` catches and
logs a write failure, so the file keeps its old content and the function
still returns normally and logs success). -/
def syncSteamTags (env : Env) (s : SyncState) :
    SyncState × FeedResult × FeedTrace :=
  let data := s.file
  match env.tagList (tagsSinceArg data) with
  | .error m => (s, .threw m, {})
  | .ok tl =>
    if tl.tags.length == 0 then
      (s, .returned, { loggedNoNew := true })
    else
      let res := insertOrUpdateTags s.db tl.tags env.tagsWriteFails
      if res.2 then
        let data1 := { data with lastTagHash := some tl.tagHash }
        if env.dataWriteOk then
          ({ db := res.1, file := data1 }, .returned,
            { writerCalled := true, saveAttempted := true,
              saveSucceeded := true, loggedSynced := true })
        else
          ({ db := res.1, file := data }, .returned,
            { writerCalled := true, saveAttempted := true,
              saveSucceeded := false, saveErrorLogged := true,
              loggedSynced := true })
      else ({ s with db := res.1 }, .returned, { writerCalled := true })

/-- `syncSteamApps` (jobs module lines 45-75): read `data.json`, run the
paginated listing (with the stored time when truthy), return on zero
apps, fetch details for exactly the listed ids, return on a failed
`insertOrUpdateApps`, else set `data.lastAppTime` to the fetched `time`
and write `data.json` (same swallowed-failure behaviour of
`setDataJson`). -/
def syncSteamApps (env : Env) (s : SyncState) :
    SyncState × FeedResult × FeedTrace :=
  let data := s.file
  match getSteamApps env.pages (appsSinceArg data) env.now with
  | .error m => (s, .threw m, {})
  | .ok (apps, time, _calls) =>
    if apps.length == 0 then
      (s, .returned, { loggedNoNew := true })
    else
      match getSteamAppDetails env.detailsRemote (apps.map (fun a => a.appId)) with
      | .error m => (s, .threw m, {})
      | .ok (dets, _chunks) =>
        let res := insertOrUpdateApps s.db dets
        if res.2 then
          let data1 := { data with lastAppTime := some time }
          if env.dataWriteOk then
            ({ db := res.1, file := data1 }, .returned,
              { writerCalled := true, saveAttempted := true,
                saveSucceeded := true, loggedSynced := true })
          else
            ({ db := res.1, file := data }, .returned,
              { writerCalled := true, saveAttempted := true,
                saveSucceeded := false, saveErrorLogged := true,
                loggedSynced := true })
        else
          ({ s with db := res.1 }, .returned, { writerCalled := true })

/-- Outcome of a whole pass of `syncWithSteam`. -/
inductive PassResult
  | threw (msg : String)
  | completed
deriving DecidableEq

/-- Trace of a whole pass: the tags feed's trace, and the apps feed's
trace when that feed ran at all (`none` when the tags feed threw before
it). -/
structure PassTrace where
  tags : FeedTrace
  apps : Option FeedTrace
deriving DecidableEq

/-- `syncWithSteam` (jobs module lines 8-13): `await syncSteamTags()`
then `await syncSteamApps()`; a rejection of the first `await` propagates
out of `syncWithSteam`, so the apps feed does not run in that pass. -/
def syncWithSteam (env : Env) (s : SyncState) :
    SyncState × PassResult × PassTrace :=
  match syncSteamTags env s with
  | (s1, .threw m, t1) => (s1, .threw m, ⟨t1, none⟩)
  | (s1, .returned, t1) =>
    match syncSteamApps env s1 with
    | (s2, .threw m, t2) => (s2, .threw m, ⟨t1, some t2⟩)
    | (s2, .returned, t2) => (s2, .completed, ⟨t1, some t2⟩)

/-- The identifiers a `GetAppList` page contributes (`data.response.apps ?? []`). -/
def pageApps (p : AppListPage) : List RawApp :=
  p.apps.getD []

/-- The requests `getSteamApps` issues while walking a page sequence: all
carry the same `if_modified_since` and `max_results = 50000`, and each
page's `last_appid` keys the next request. -/
def expectedCalls (lastTime : Int) : Int → List AppListPage → List AppListCall
  | _, [] => []
  | cursor, p :: rest =>
    ⟨lastTime, cursor, 50000⟩ :: expectedCalls lastTime p.last_appid rest

/-- A region-available `GetItems` store item for id `i`, used as a
concrete remote behaviour in witnesses. -/
def stubItem (i : Int) : StoreItem :=
  { appid := i
    name := "n"
    full_description := "d"
    tags := none
    unvailable_for_country_restriction := false }

/-- 600 distinct requested ids, for the chunking witness. -/
def ids600 : List Int :=
  (List.range 600).map Int.ofNat

/-- An empty store (fresh database). -/
def emptyDB : DB :=
  { tags := [], app := [], app_tags := [] }

/-- A fresh sync state: empty store, missing `data.json`. -/
def emptyState : SyncState :=
  { db := emptyDB, file := {} }

/-- A detail item as the sync pipeline produces it: no `color`, no
`playerCount`, here also no tags. -/
def plainDetail : AppDetail :=
  { appId := 10, name := "Game A", description := "desc", tags := [] }

/-- A pre-existing `app` row with non-null color and player count, for
the conflict-update case. -/
def priorRow : AppRow :=
  { app_id := 10
    name := some "Old"
    description := some "old"
    color := some "#ff0000"
    player_count := some 42 }

/-- An environment whose tag-list fetch throws (remote unreachable) while
the catalog feed's remote and store behave: one `GetAppList` page with one
app, available details, all writes succeed. -/
def envTagsThrow : Env :=
  { tagList := fun _ => .error "ECONNREFUSED"
    pages := [.ok ⟨some [⟨10, "Game A"⟩], false, 0⟩]
    detailsRemote := fun c => .ok (c.map stubItem)
    now := 1000
    tagsWriteFails := false
    dataWriteOk := true }

/-- An environment where both remotes report changes and the store writes
succeed, but the `data.json` write fails. -/
def envSaveFails : Env :=
  { tagList := fun _ => .ok ⟨[(1, "Action")], 77⟩
    pages := [.ok ⟨some [⟨10, "Game A"⟩], false, 0⟩]
    detailsRemote := fun c => .ok (c.map stubItem)
    now := 1000
    tagsWriteFails := false
    dataWriteOk := false }

/-- A steady-state environment: the tag hash is unchanged (zero entries)
and the first `GetAppList` page is empty. -/
def envNoChanges : Env :=
  { tagList := fun _ => .ok ⟨[], 77⟩
    pages := [.ok ⟨some [], false, 0⟩]
    detailsRemote := fun c => .ok (c.map stubItem)
    now := 1000
    tagsWriteFails := false
    dataWriteOk := true }

/-- An environment where everything succeeds: one tag, one app, available
details, all writes succeed. -/
def envAllOk : Env :=
  { tagList := fun _ => .ok ⟨[(1, "Action")], 77⟩
    pages := [.ok ⟨some [⟨10, "Game A"⟩], false, 0⟩]
    detailsRemote := fun c => .ok (c.map stubItem)
    now := 1000
    tagsWriteFails := false
    dataWriteOk := true }

/-- An environment whose tag store write fails (store error) while
everything else behaves. -/
def envTagsWriteFails : Env :=
  { tagList := fun _ => .ok ⟨[(1, "Action")], 77⟩
    pages := [.ok ⟨some [⟨10, "Game A"⟩], false, 0⟩]
    detailsRemote := fun c => .ok (c.map stubItem)
    now := 1000
    tagsWriteFails := true
    dataWriteOk := true }

/-! ## Basic lemmas on the chunk construction -/

theorem chunksOfGo_fuel (n : Nat) :
    ∀ (fuel fuel' : Nat) (l : List α), l.length ≤ fuel → l.length ≤ fuel' →
      chunksOfGo (n + 1) fuel l = chunksOfGo (n + 1) fuel' l := by
  intro fuel
  induction fuel with
  | zero =>
    intro fuel' l hl _
    have hnil : l = [] := List.length_eq_zero.mp (Nat.le_zero.mp hl)
    subst hnil
    cases fuel' <;> rfl
  | succ f ih =>
    intro fuel' l hl hl'
    cases l with
    | nil => cases fuel' <;> rfl
    | cons x xs =>
      cases fuel' with
      | zero => simp at hl'
      | succ f' =>
        simp only [chunksOfGo]
        congr 1
        apply ih
        · simp only [List.length_drop, List.length_cons] at *
          omega
        · simp only [List.length_drop, List.length_cons] at *
          omega

theorem chunksOf_nil (n : Nat) : chunksOf n ([] : List α) = [] := rfl

theorem chunksOf_cons (n : Nat) (x : α) (xs : List α) :
    chunksOf (n + 1) (x :: xs) =
      ((x :: xs).take (n + 1)) :: chunksOf (n + 1) ((x :: xs).drop (n + 1)) := by
  show chunksOfGo (n + 1) (x :: xs).length (x :: xs) = _
  simp only [List.length_cons, chunksOfGo]
  congr 1
  apply chunksOfGo_fuel
  · simp only [List.length_drop, List.length_cons]
    omega
  · exact Nat.le_refl _

theorem chunksOf_ne_nil (n : Nat) (l : List α) (h : l ≠ []) :
    chunksOf (n + 1) l = (l.take (n + 1)) :: chunksOf (n + 1) (l.drop (n + 1)) := by
  cases l with
  | nil => exact absurd rfl h
  | cons x xs => exact chunksOf_cons n x xs

theorem chunksOf_flatten (n : Nat) :
    ∀ l : List α, (chunksOf (n + 1) l).flatten = l
  | [] => by simp [chunksOf_nil]
  | x :: xs => by
    rw [chunksOf_cons, List.flatten_cons,
      chunksOf_flatten n ((x :: xs).drop (n + 1)), List.take_append_drop]
termination_by l => l.length
decreasing_by
  simp only [List.length_drop, List.length_cons]
  omega

theorem chunksOf250_flatten (l : List α) : (chunksOf 250 l).flatten = l :=
  chunksOf_flatten 249 l

theorem chunksOf250_ne_nil (l : List α) (h : l ≠ []) :
    chunksOf 250 l = (l.take 250) :: chunksOf 250 (l.drop 250) :=
  chunksOf_ne_nil 249 l h

theorem chunksOf_map_length_600 (l : List α) (h : l.length = 600) :
    (chunksOf 250 l).map List.length = [250, 250, 100] := by
  have h0 : l ≠ [] := by
    intro hc
    rw [hc] at h
    simp at h
  have h1 : (l.drop 250).length = 350 := by
    rw [List.length_drop, h]
  have h1n : l.drop 250 ≠ [] := by
    intro hc
    rw [hc] at h1
    simp at h1
  have h2 : ((l.drop 250).drop 250).length = 100 := by
    rw [List.length_drop, h1]
  have h2n : (l.drop 250).drop 250 ≠ [] := by
    intro hc
    rw [hc] at h2
    simp at h2
  have h3 : ((l.drop 250).drop 250).drop 250 = [] := by
    apply List.length_eq_zero.mp
    rw [List.length_drop, h2]
  rw [chunksOf250_ne_nil l h0, chunksOf250_ne_nil _ h1n, chunksOf250_ne_nil _ h2n,
    h3, chunksOf_nil]
  simp [List.length_take, h, h1, h2]

/-! ## Pagination of the identifier listing (`getSteamApps`) -/

/-- C3: an empty first page makes `getSteamApps` return at once with no
ids and with the *input* `lastTime` as the returned time, for any value of
`Date.now()`, any cursor data on the page and any further scripted pages. -/
theorem getSteamApps_empty_first_page (rest : List (Except String AppListPage))
    (more : Bool) (last lastTime now : Int) :
    getSteamApps (.ok ⟨some [], more, last⟩ :: rest) lastTime now =
      .ok ([], lastTime, [⟨lastTime, 0, 50000⟩]) := by
  simp [getSteamApps, getSteamAppsGo]

/-- C6 counterexample: a second page that is empty while its
`have_more_results` flag is still `true`.  The loop terminates anyway —
by the emptiness check, not by the flag — and discards the first page's
identifier instead of returning the concatenation of pages. -/
theorem getSteamApps_stops_on_empty_page :
    getSteamApps [.ok ⟨some [⟨1, "a"⟩], true, 7⟩, .ok ⟨some [], true, 9⟩] 5 100 =
      .ok ([], 5, [⟨5, 0, 50000⟩, ⟨5, 7, 50000⟩]) := by
  rfl

theorem getSteamAppsGo_pages (lastTime now : Int)
    (lastPage : AppListPage)
    (hl1 : lastPage.apps ≠ some []) (hl2 : lastPage.have_more_results = false) :
    ∀ (pre : List AppListPage),
      (∀ p ∈ pre, p.apps ≠ some [] ∧ p.have_more_results = true) →
      ∀ (cursor : Int) (acc : List RawApp) (calls : List AppListCall),
        getSteamAppsGo lastTime now ((pre ++ [lastPage]).map Except.ok) cursor acc calls =
          .ok ((acc ++ (pre ++ [lastPage]).flatMap pageApps).map
              (fun a => ⟨a.appid, a.name⟩),
            now, calls ++ expectedCalls lastTime cursor (pre ++ [lastPage])) := by
  intro pre
  induction pre with
  | nil =>
    intro _ cursor acc calls
    simp [getSteamAppsGo, hl1, hl2, pageApps, expectedCalls]
  | cons p rest ih =>
    intro hpre cursor acc calls
    have hp := hpre p (List.mem_cons_self p rest)
    have hrest : ∀ q ∈ rest, q.apps ≠ some [] ∧ q.have_more_results = true :=
      fun q hq => hpre q (List.mem_cons_of_mem p hq)
    simp only [List.cons_append, List.map_cons]
    rw [getSteamAppsGo]
    simp only [hp.1, hp.2, beq_iff_eq, if_neg hp.1, if_true, if_false]
    rw [ih hrest]
    simp [pageApps, expectedCalls, List.append_assoc]

/-- C6 (amended): for a page sequence in which no page reports an empty
apps list, `getSteamApps` keeps requesting pages keyed by the remote's
`last_appid` cursor, terminates exactly at the first page whose
`have_more_results` flag is false, and returns the concatenation of all
pages' identifiers in order; the original claim's "terminates exactly when
the flag is false, never by emptiness" fails on empty pages (see the
counterexample). -/
theorem getSteamApps_pagination (pre : List AppListPage) (lastPage : AppListPage)
    (lastTime now : Int)
    (hpre : ∀ p ∈ pre, p.apps ≠ some [] ∧ p.have_more_results = true)
    (hl1 : lastPage.apps ≠ some []) (hl2 : lastPage.have_more_results = false) :
    getSteamApps ((pre ++ [lastPage]).map Except.ok) lastTime now =
      .ok (((pre ++ [lastPage]).flatMap pageApps).map (fun a => ⟨a.appid, a.name⟩),
        now, expectedCalls lastTime 0 (pre ++ [lastPage])) := by
  rw [getSteamApps, getSteamAppsGo_pages lastTime now lastPage hl1 hl2 pre hpre 0 [] []]
  simp

/-- C6 witness: two nonempty pages, the second with the flag off — the
result concatenates both pages' ids and records the cursor-keyed calls. -/
theorem getSteamApps_pagination_witness :
    getSteamApps
        (([(⟨some [⟨1, "a"⟩], true, 7⟩ : AppListPage)] ++
          [(⟨some [⟨2, "b"⟩], false, 9⟩ : AppListPage)]).map Except.ok) 5 100 =
      .ok ([⟨1, "a"⟩, ⟨2, "b"⟩], 100, [⟨5, 0, 50000⟩, ⟨5, 7, 50000⟩]) := by
  rw [getSteamApps_pagination [⟨some [⟨1, "a"⟩], true, 7⟩] ⟨some [⟨2, "b"⟩], false, 9⟩ 5 100
    (by decide) (by decide) (by decide)]
  rfl

/-! ## Chunked detail fetch (`getSteamAppDetails`) -/

theorem getSteamAppDetailsGo_ok (item : Int → StoreItem) :
    ∀ (cs : List (List Int)) (acc : List StoreItem),
      getSteamAppDetailsGo (fun c => .ok (c.map item)) cs acc =
        .ok (acc ++ (cs.flatten.map item).filter
          (fun it => ! it.unvailable_for_country_restriction))
  | [], acc => by simp [getSteamAppDetailsGo]
  | c :: rest, acc => by
    simp only [getSteamAppDetailsGo, getSteamAppDetailsGo_ok item rest,
      List.flatten_cons, List.map_append, List.filter_append, List.append_assoc]

/-- C7: with a remote that answers each requested chunk with one store
item per requested id (in order), `getSteamAppDetails` on 600 ids issues
exactly the 3 consecutive chunks of sizes 250, 250, 100 as its remote
calls, and its result is exactly the requested ids minus the
region-restricted ones, in order, each exactly once (no duplicates, no
omissions). -/
theorem getSteamAppDetails_chunks (item : Int → StoreItem) (ids : List Int)
    (hlen : ids.length = 600) (hnd : ids.Nodup)
    (hid : ∀ i, (item i).appid = i) :
    getSteamAppDetails (fun c => .ok (c.map item)) ids =
        .ok ((ids.filter (fun i => ! (item i).unvailable_for_country_restriction)).map
            (fun i => toAppDetail (item i)),
          chunksOf 250 ids) ∧
      (chunksOf 250 ids).length = 3 ∧
      (chunksOf 250 ids).map List.length = [250, 250, 100] ∧
      ((ids.filter (fun i => ! (item i).unvailable_for_country_restriction)).map
          (fun i => toAppDetail (item i))).map (fun d => d.appId) =
        ids.filter (fun i => ! (item i).unvailable_for_country_restriction) ∧
      (ids.filter (fun i => ! (item i).unvailable_for_country_restriction)).Nodup := by
  refine ⟨?_, ?_, ?_, ?_, ?_⟩
  · simp only [getSteamAppDetails, getSteamAppDetailsGo_ok item, List.nil_append,
      chunksOf250_flatten, List.filter_map, List.map_map, Function.comp]
    rfl
  · have h3 := chunksOf_map_length_600 ids hlen
    have hl : ((chunksOf 250 ids).map List.length).length = 3 := by
      rw [h3]
      rfl
    simpa using hl
  · exact chunksOf_map_length_600 ids hlen
  · rw [List.map_map]
    have hcomp : ((fun d => d.appId) ∘ fun i => toAppDetail (item i)) =
        fun i : Int => i := by
      funext i
      simp [toAppDetail, hid i]
    rw [hcomp]
    simp
  · exact List.Nodup.filter _ hnd

/-- C7 witness: the chunking theorem applied to 600 concrete distinct ids
and a remote that returns every id as an available item. -/
theorem getSteamAppDetails_chunks_witness :
    getSteamAppDetails (fun c => .ok (c.map stubItem)) ids600 =
        .ok ((ids600.filter
              (fun i => ! (stubItem i).unvailable_for_country_restriction)).map
            (fun i => toAppDetail (stubItem i)),
          chunksOf 250 ids600) ∧
      (chunksOf 250 ids600).length = 3 ∧
      (chunksOf 250 ids600).map List.length = [250, 250, 100] ∧
      ((ids600.filter
          (fun i => ! (stubItem i).unvailable_for_country_restriction)).map
          (fun i => toAppDetail (stubItem i))).map (fun d => d.appId) =
        ids600.filter (fun i => ! (stubItem i).unvailable_for_country_restriction) ∧
      (ids600.filter
        (fun i => ! (stubItem i).unvailable_for_country_restriction)).Nodup :=
  getSteamAppDetails_chunks stubItem ids600
    (by rw [ids600, List.length_map, List.length_range])
    (by
      rw [ids600]
      exact List.Nodup.map (fun a b h => Int.ofNat.inj h) (List.nodup_range 600))
    (fun i => rfl)

/-! ## Player count (`getPlayerCount`) -/

/-- C10 counterexample: a 200 response whose JSON body has no `response`
object certainly "lacks a player_count field", yet `getPlayerCount`
throws a TypeError (reading `player_count` of `undefined`) instead of
returning 0 — so "never throws" is false as stated. -/
theorem getPlayerCount_throws_on_missing_response :
    getPlayerCount (.ok ⟨true, .ok ⟨none⟩⟩) =
      .error "TypeError: cannot read properties of undefined" := rfl

/-- C10 (amended): `getPlayerCount` returns 0 on a non-success status
and when the body's `response` object lacks `player_count`, and returns
the remote value otherwise; but it does throw when the fetch itself
rejects, when the body fails to parse, or when the body lacks the
`response` object entirely. -/
theorem getPlayerCount_cases (fetched : Except String PlayerCountResponse) :
    (∀ resp, fetched = .ok resp → resp.ok = false →
      getPlayerCount fetched = .ok 0) ∧
    (∀ resp b, fetched = .ok resp → resp.ok = true → resp.body = .ok b →
      b.response = some none → getPlayerCount fetched = .ok 0) ∧
    (∀ resp b v, fetched = .ok resp → resp.ok = true → resp.body = .ok b →
      b.response = some (some v) → getPlayerCount fetched = .ok v) ∧
    (∀ e, fetched = .error e → getPlayerCount fetched = .error e) ∧
    (∀ resp e, fetched = .ok resp → resp.ok = true → resp.body = .error e →
      getPlayerCount fetched = .error e) ∧
    (∀ resp b, fetched = .ok resp → resp.ok = true → resp.body = .ok b →
      b.response = none → ∃ e, getPlayerCount fetched = .error e) := by
  refine ⟨?_, ?_, ?_, ?_, ?_, ?_⟩
  · intro resp h1 h2
    subst h1
    simp [getPlayerCount, h2]
  · intro resp b h1 h2 h3 h4
    subst h1
    simp [getPlayerCount, h2, h3, h4]
  · intro resp b v h1 h2 h3 h4
    subst h1
    simp [getPlayerCount, h2, h3, h4]
  · intro e h1
    subst h1
    simp [getPlayerCount]
  · intro resp e h1 h2 h3
    subst h1
    simp [getPlayerCount, h2, h3]
  · intro resp b h1 h2 h3 h4
    subst h1
    refine ⟨"TypeError: cannot read properties of undefined", ?_⟩
    simp [getPlayerCount, h2, h3, h4]

/-- C10 witness: a successful response carrying `player_count = 5`. -/
theorem getPlayerCount_cases_witness :
    getPlayerCount (.ok ⟨true, .ok ⟨some (some 5)⟩⟩) = .ok 5 :=
  (getPlayerCount_cases (.ok ⟨true, .ok ⟨some (some 5)⟩⟩)).2.2.1
    ⟨true, .ok ⟨some (some 5)⟩⟩ ⟨some (some 5)⟩ 5 rfl rfl rfl rfl

/-! ## Store writer (`insertOrUpdateTags` / `insertOrUpdateApps`) -/

/-- C8 (code bug): the schema declares `color TEXT DEFAULT '#000000'` and
`player_count INTEGER DEFAULT 0`, but `insertOrUpdateApps` always
supplies both columns explicitly, so the JavaScript `undefined` of an
item produced by `getSteamAppDetails` (whose objects carry no `color` or
`playerCount` field) is stored as SQL `NULL` — not as the sentinel color
and not as popularity 0 — for fresh inserts and conflict updates alike. -/
theorem insertOrUpdateApps_stores_null_for_missing_fields :
    (toAppDetail (stubItem 10)).color = none ∧
    (toAppDetail (stubItem 10)).playerCount = none ∧
    insertOrUpdateApps emptyDB [plainDetail] =
      ({ tags := [],
         app := [⟨10, some "Game A", some "desc", none, none⟩],
         app_tags := [] }, true) ∧
    insertOrUpdateApps { emptyDB with app := [priorRow] } [plainDetail] =
      ({ tags := [],
         app := [⟨10, some "Game A", some "desc", none, none⟩],
         app_tags := [] }, true) ∧
    (none : Option String) ≠ some appColorDefault ∧
    (none : Option Int) ≠ some appPlayerCountDefault :=
  ⟨rfl, rfl, by decide, by decide, by decide, by decide⟩

/-- C2: if the weight-association statement fails inside the transaction
of `insertOrUpdateApps`, the transaction is rolled back: the committed
store after the call is exactly the store before the call (no item
core-field change from this call is visible) and the call reports
`false`. -/
theorem insertOrUpdateApps_rollback (db : DB) (apps : List AppDetail) (e : String)
    (h : runTagsQuery (runAppQuery db apps) (flatTagRows apps) = .error e) :
    insertOrUpdateApps db apps = (db, false) := by
  simp [insertOrUpdateApps, Conn.begin, Conn.rollback, h]

/-- C2 witness: a batch whose weight rows reference a tag id missing from
the `tags` table makes the weight statement fail; the store is unchanged
and the call returns `false`. -/
theorem insertOrUpdateApps_rollback_witness :
    insertOrUpdateApps emptyDB
        [{ appId := 10, name := "A", description := "d", tags := [⟨1, 5⟩] }] =
      (emptyDB, false) :=
  insertOrUpdateApps_rollback emptyDB
    [{ appId := 10, name := "A", description := "d", tags := [⟨1, 5⟩] }]
    "foreign key violation" rfl

/-! ## Framing lemmas for the store writer -/

theorem insertOrUpdateTags_fst_app (db : DB) (ts : List (Int × String)) (f : Bool) :
    (insertOrUpdateTags db ts f).1.app = db.app := by
  cases f <;> simp [insertOrUpdateTags]

theorem insertOrUpdateTags_fst_app_tags (db : DB) (ts : List (Int × String))
    (f : Bool) :
    (insertOrUpdateTags db ts f).1.app_tags = db.app_tags := by
  cases f <;> simp [insertOrUpdateTags]

theorem runTagsQuery_ok_tags (rows : List (Int × Int × Int)) :
    ∀ (db db' : DB), runTagsQuery db rows = .ok db' →
      db'.tags = db.tags ∧ db'.app = db.app := by
  induction rows with
  | nil =>
    intro db db' h
    simp only [runTagsQuery, Except.ok.injEq] at h
    rw [← h]
    exact ⟨rfl, rfl⟩
  | cons r rest ih =>
    intro db db' h
    rw [runTagsQuery] at h
    by_cases hc : (db.app.any (fun x => x.app_id == r.1)
        && db.tags.any (fun x => x.1 == r.2.1)) = true
    · rw [if_pos hc] at h
      simpa using ih _ _ h
    · rw [if_neg hc] at h
      cases h

theorem insertOrUpdateApps_fst_tags (db : DB) (apps : List AppDetail) :
    (insertOrUpdateApps db apps).1.tags = db.tags := by
  show (match runTagsQuery (runAppQuery db apps) (flatTagRows apps) with
    | Except.error _ => (db, false)
    | Except.ok d2 => (d2, true)).1.tags = db.tags
  cases h : runTagsQuery (runAppQuery db apps) (flatTagRows apps) with
  | error e => rfl
  | ok d2 => exact ((runTagsQuery_ok_tags _ _ _ h).1).trans rfl

/-- When the tags feed returns normally (for any reason), the pass goes
on to run the apps feed. -/
theorem syncWithSteam_apps_ran (env : Env) (s s1 : SyncState) (t1 : FeedTrace)
    (h : syncSteamTags env s = (s1, .returned, t1)) :
    (syncWithSteam env s).2.2.apps.isSome = true := by
  simp only [syncWithSteam, h]
  rcases h2 : syncSteamApps env s1 with ⟨s2, r2, t2⟩
  cases r2 <;> rfl

/-! ## Reconciler claims -/

/-- C5: an empty fetch result makes each feed return normally at once:
the store writer is not called, nothing is saved, no row and no watermark
changes — zero entries is a steady-state no-op, never a deletion. -/
theorem sync_empty_fetch_noop (env : Env) (s : SyncState) :
    (∀ h, env.tagList (tagsSinceArg s.file) = .ok ⟨[], h⟩ →
      syncSteamTags env s = (s, .returned, { loggedNoNew := true })) ∧
    (∀ t cs, getSteamApps env.pages (appsSinceArg s.file) env.now = .ok ([], t, cs) →
      syncSteamApps env s = (s, .returned, { loggedNoNew := true })) := by
  constructor
  · intro h hh
    simp [syncSteamTags, hh]
  · intro t cs hh
    simp [syncSteamApps, hh]

/-- C5 witness: an unchanged tag hash (zero entries) and an empty first
page leave the state untouched, with the writer never called. -/
theorem sync_empty_fetch_noop_witness :
    syncSteamTags envNoChanges emptyState =
        (emptyState, .returned, { loggedNoNew := true }) ∧
    syncSteamApps envNoChanges emptyState =
        (emptyState, .returned, { loggedNoNew := true }) :=
  ⟨(sync_empty_fetch_noop envNoChanges emptyState).1 77 rfl,
   (sync_empty_fetch_noop envNoChanges emptyState).2 0 [⟨0, 0, 50000⟩] rfl⟩

/-- C9 counterexample: after a successful fetch and store write, a
failing `data.json` write is swallowed by `setDataJson`'s catch: the feed
neither throws nor reports failure — it returns normally, logs the
error only to the console, and still logs its success message.  Nothing
is surfaced to the caller. -/
theorem sync_tags_save_failure_not_surfaced :
    syncSteamTags envSaveFails emptyState =
      ({ db := { tags := [(1, "Action")], app := [], app_tags := [] },
         file := {} },
        .returned,
        { writerCalled := true, saveAttempted := true, saveSucceeded := false,
          saveErrorLogged := true, loggedSynced := true }) := rfl

/-- C9 (amended): a watermark save failure is caught inside `setDataJson`
and logged, never crashing the process, and the persisted watermark for
that feed keeps its prior value (advancement is aborted at the
persistence layer); but the failure is not surfaced to the caller — the
feed returns normally and logs success — and the other feed still runs
in the same pass, unaffected. -/
theorem sync_tags_save_failure_swallowed (env : Env) (s : SyncState)
    (tl : TagListResult)
    (hfetch : env.tagList (tagsSinceArg s.file) = .ok tl)
    (hne : tl.tags ≠ [])
    (hw : env.tagsWriteFails = false)
    (hsave : env.dataWriteOk = false) :
    syncSteamTags env s =
      ({ db := { s.db with tags := tl.tags.foldl upsertTagRow s.db.tags },
         file := s.file },
        .returned,
        { writerCalled := true, saveAttempted := true, saveSucceeded := false,
          saveErrorLogged := true, loggedSynced := true }) ∧
    (syncWithSteam env s).2.2.apps.isSome = true := by
  have hlen : (tl.tags.length == 0) = false := by
    simp [List.length_eq_zero, hne]
  have h1 : syncSteamTags env s =
      ({ db := { s.db with tags := tl.tags.foldl upsertTagRow s.db.tags },
         file := s.file },
        .returned,
        { writerCalled := true, saveAttempted := true, saveSucceeded := false,
          saveErrorLogged := true, loggedSynced := true }) := by
    simp [syncSteamTags, hfetch, hlen, hw, hsave, insertOrUpdateTags]
  exact ⟨h1, syncWithSteam_apps_ran env s _ _ h1⟩

/-- C9 witness: the swallowed-save-failure theorem at a concrete
environment whose `data.json` write fails. -/
theorem sync_tags_save_failure_swallowed_witness :
    syncSteamTags envSaveFails { db := emptyDB, file := {} } =
      ({ db := { emptyDB with
           tags := [((1 : Int), "Action")].foldl upsertTagRow emptyDB.tags },
         file := ({} : FileState) },
        .returned,
        { writerCalled := true, saveAttempted := true, saveSucceeded := false,
          saveErrorLogged := true, loggedSynced := true }) ∧
    (syncWithSteam envSaveFails { db := emptyDB, file := {} }).2.2.apps.isSome = true :=
  sync_tags_save_failure_swallowed envSaveFails { db := emptyDB, file := {} }
    ⟨[(1, "Action")], 77⟩ rfl (by decide) rfl rfl

/-- C4 counterexample: a thrown transport error in the taxonomy feed
propagates out of `syncWithSteam`, so the catalog feed never runs in that
pass — even though the same environment lets `syncSteamApps` succeed on
its own (it would store app 10) — contradicting "a failure in the
taxonomy feed does not prevent the catalog feed from running". -/
theorem syncWithSteam_tags_throw_blocks_catalog :
    syncWithSteam envTagsThrow emptyState =
        (emptyState, .threw "ECONNREFUSED", ⟨{}, none⟩) ∧
    (syncSteamApps envTagsThrow emptyState).2.1 = .returned ∧
    (syncSteamApps envTagsThrow emptyState).1.db.app =
      [⟨10, some "n", some "d", none, none⟩] :=
  ⟨rfl, rfl, rfl⟩

/-- C4 (amended): the two feeds are isolated at the level of state —
the taxonomy feed never touches the catalog's tables (`app`, `app_tags`)
or its watermark (`lastAppTime`), and the catalog feed never touches the
`tags` table or `lastTagHash` — and any taxonomy outcome that returns
normally (including a failed store write and a failed watermark save)
lets the catalog feed run.  However, a thrown taxonomy fetch error
propagates out of `syncWithSteam` and the catalog feed does not run in
that pass. -/
theorem feed_independence (env : Env) (s : SyncState) :
    (∀ s1 t1, syncSteamTags env s = (s1, .returned, t1) →
      (syncWithSteam env s).2.2.apps.isSome = true) ∧
    ((syncSteamTags env s).1.db.app = s.db.app ∧
      (syncSteamTags env s).1.db.app_tags = s.db.app_tags ∧
      (syncSteamTags env s).1.file.lastAppTime = s.file.lastAppTime) ∧
    ((syncSteamApps env s).1.db.tags = s.db.tags ∧
      (syncSteamApps env s).1.file.lastTagHash = s.file.lastTagHash) ∧
    (∀ s1 m t1, syncSteamTags env s = (s1, .threw m, t1) →
      syncWithSteam env s = (s1, .threw m, ⟨t1, none⟩)) := by
  refine ⟨?_, ?_, ?_, ?_⟩
  · exact fun s1 t1 h => syncWithSteam_apps_ran env s s1 t1 h
  · cases hfetch : env.tagList (tagsSinceArg s.file) with
    | error m => simp [syncSteamTags, hfetch]
    | ok tl =>
      by_cases hlen : (tl.tags.length == 0) = true
      · simp [syncSteamTags, hfetch, hlen]
      · by_cases hres : (insertOrUpdateTags s.db tl.tags env.tagsWriteFails).2 = true
        · by_cases hdw : env.dataWriteOk = true
          · simp [syncSteamTags, hfetch, hlen, hres, hdw,
              insertOrUpdateTags_fst_app, insertOrUpdateTags_fst_app_tags]
          · simp [syncSteamTags, hfetch, hlen, hres, hdw,
              insertOrUpdateTags_fst_app, insertOrUpdateTags_fst_app_tags]
        · simp [syncSteamTags, hfetch, hlen, hres,
            insertOrUpdateTags_fst_app, insertOrUpdateTags_fst_app_tags]
  · cases h1 : getSteamApps env.pages (appsSinceArg s.file) env.now with
    | error m => simp [syncSteamApps, h1]
    | ok trip =>
      obtain ⟨apps, time, calls⟩ := trip
      by_cases he : (apps.length == 0) = true
      · simp [syncSteamApps, h1, he]
      · cases h2 : getSteamAppDetails env.detailsRemote
            (apps.map (fun a => a.appId)) with
        | error m => simp [syncSteamApps, h1, he, h2]
        | ok dc =>
          obtain ⟨dets, chunks⟩ := dc
          by_cases hres : (insertOrUpdateApps s.db dets).2 = true
          · by_cases hdw : env.dataWriteOk = true
            · simp [syncSteamApps, h1, he, h2, hres, hdw,
                insertOrUpdateApps_fst_tags]
            · simp [syncSteamApps, h1, he, h2, hres, hdw,
                insertOrUpdateApps_fst_tags]
          · simp [syncSteamApps, h1, he, h2, hres, insertOrUpdateApps_fst_tags]
  · intro s1 m t1 h
    simp only [syncWithSteam, h]

/-- C4 witness: a failed taxonomy store write returns normally, so the
catalog feed still runs in the same pass. -/
theorem feed_independence_witness :
    (syncWithSteam envTagsWriteFails emptyState).2.2.apps.isSome = true :=
  (feed_independence envTagsWriteFails emptyState).1 emptyState
    { writerCalled := true } rfl

/-- C1: for each feed, the persisted watermark in `data.json` keeps its
prior value when the fetch throws, when the detail expansion throws and
when the store write reports failure; and whenever it does change, that
feed's fetch succeeded with a nonempty result, the store write returned
success, the `data.json` write succeeded, and the new value is exactly
the `tagHash` / `time` returned by that pass's fetch step. -/
theorem watermark_advance_discipline (env : Env) (s : SyncState) :
    (∀ m, env.tagList (tagsSinceArg s.file) = .error m →
      (syncSteamTags env s).1 = s) ∧
    (env.tagsWriteFails = true → (syncSteamTags env s).1.file = s.file) ∧
    ((syncSteamTags env s).1.file ≠ s.file →
      ∃ tl, env.tagList (tagsSinceArg s.file) = .ok tl ∧ tl.tags ≠ [] ∧
        (insertOrUpdateTags s.db tl.tags env.tagsWriteFails).2 = true ∧
        env.dataWriteOk = true ∧
        (syncSteamTags env s).1.file =
          { s.file with lastTagHash := some tl.tagHash }) ∧
    (∀ m, getSteamApps env.pages (appsSinceArg s.file) env.now = .error m →
      (syncSteamApps env s).1 = s) ∧
    (∀ apps time calls m,
      getSteamApps env.pages (appsSinceArg s.file) env.now = .ok (apps, time, calls) →
      getSteamAppDetails env.detailsRemote (apps.map (fun a => a.appId)) = .error m →
      (syncSteamApps env s).1 = s) ∧
    (∀ apps time calls dets chunks,
      getSteamApps env.pages (appsSinceArg s.file) env.now = .ok (apps, time, calls) →
      getSteamAppDetails env.detailsRemote (apps.map (fun a => a.appId)) =
        .ok (dets, chunks) →
      (insertOrUpdateApps s.db dets).2 = false →
      (syncSteamApps env s).1.file = s.file) ∧
    ((syncSteamApps env s).1.file ≠ s.file →
      ∃ apps time calls,
        getSteamApps env.pages (appsSinceArg s.file) env.now =
          .ok (apps, time, calls) ∧
        apps ≠ [] ∧
        (∃ dets chunks,
          getSteamAppDetails env.detailsRemote (apps.map (fun a => a.appId)) =
            .ok (dets, chunks) ∧
          (insertOrUpdateApps s.db dets).2 = true) ∧
        env.dataWriteOk = true ∧
        (syncSteamApps env s).1.file =
          { s.file with lastAppTime := some time }) := by
  refine ⟨?_, ?_, ?_, ?_, ?_, ?_, ?_⟩
  · intro m h
    simp [syncSteamTags, h]
  · intro hw
    cases hfetch : env.tagList (tagsSinceArg s.file) with
    | error m => simp [syncSteamTags, hfetch]
    | ok tl =>
      by_cases hlen : (tl.tags.length == 0) = true
      · simp [syncSteamTags, hfetch, hlen]
      · simp [syncSteamTags, hfetch, hlen, hw, insertOrUpdateTags]
  · intro hne
    cases hfetch : env.tagList (tagsSinceArg s.file) with
    | error m =>
      exact absurd (by simp [syncSteamTags, hfetch]) hne
    | ok tl =>
      by_cases hlen : (tl.tags.length == 0) = true
      · exact absurd (by simp [syncSteamTags, hfetch, hlen]) hne
      · by_cases hres : (insertOrUpdateTags s.db tl.tags env.tagsWriteFails).2 = true
        · by_cases hdw : env.dataWriteOk = true
          · refine ⟨tl, rfl, ?_, hres, hdw, ?_⟩
            · intro hnil
              rw [hnil] at hlen
              simp at hlen
            · simp [syncSteamTags, hfetch, hlen, hres, hdw]
          · exact absurd (by simp [syncSteamTags, hfetch, hlen, hres, hdw]) hne
        · exact absurd (by simp [syncSteamTags, hfetch, hlen, hres]) hne
  · intro m h
    simp [syncSteamApps, h]
  · intro apps time calls m h1 h2
    by_cases he : (apps.length == 0) = true
    · simp [syncSteamApps, h1, he]
    · simp [syncSteamApps, h1, he, h2]
  · intro apps time calls dets chunks h1 h2 hres
    by_cases he : (apps.length == 0) = true
    · simp [syncSteamApps, h1, he]
    · simp [syncSteamApps, h1, he, h2, hres]
  · intro hne
    cases h1 : getSteamApps env.pages (appsSinceArg s.file) env.now with
    | error m =>
      exact absurd (by simp [syncSteamApps, h1]) hne
    | ok trip =>
      obtain ⟨apps, time, calls⟩ := trip
      by_cases he : (apps.length == 0) = true
      · exact absurd (by simp [syncSteamApps, h1, he]) hne
      · cases h2 : getSteamAppDetails env.detailsRemote
            (apps.map (fun a => a.appId)) with
        | error m =>
          exact absurd (by simp [syncSteamApps, h1, he, h2]) hne
        | ok dc =>
          obtain ⟨dets, chunks⟩ := dc
          by_cases hres : (insertOrUpdateApps s.db dets).2 = true
          · by_cases hdw : env.dataWriteOk = true
            · refine ⟨apps, time, calls, rfl, ?_, ⟨dets, chunks, h2, hres⟩, hdw, ?_⟩
              · intro hnil
                rw [hnil] at he
                simp at he
              · simp [syncSteamApps, h1, he, h2, hres, hdw]
            · exact absurd (by simp [syncSteamApps, h1, he, h2, hres, hdw]) hne
          · exact absurd (by simp [syncSteamApps, h1, he, h2, hres]) hne

/-- C1 witness: a failed taxonomy store write leaves the persisted
watermark untouched. -/
theorem watermark_advance_discipline_witness :
    (syncSteamTags envTagsWriteFails emptyState).1.file = emptyState.file :=
  (watermark_advance_discipline envTagsWriteFails emptyState).2.1 rfl

end SteamGraph
